import Mathlib

/-!
Shallow embedding of `peekaboo/config.py`: the Peekaboo main configuration
resolver (`PeekabooConfig`) and the ruleset configuration loader
(`PeekabooRulesetConfiguration`), together with proofs about their behaviour.

External collaborators (the file-system checks, the logging subsystem and the
raw INI parser) are modelled as explicit inputs: a parsed configuration file
is an association list of sections, each holding its option/value pairs in
file-encounter order, which is the observable state of a Python 2
`SafeConfigParser` after `read` (it stores sections and options in ordered
dictionaries and merges duplicate sections and options at parse time, so
section names are unique in the parsed state).  Python exceptions are
modelled with the `PyError` type and `Except`.
-/

/-- A value a configuration field can hold: Python `str`, `int`, `bool` or
`None`.  These are the default-value types admitted by `PeekabooConfig.get`
(its docstring: "int, bool, str or None"). -/
inductive ConfValue where
  | str (s : String)
  | int (n : Int)
  | bool (b : Bool)
  | none
deriving DecidableEq

/-- The keys of the getter dispatch table in `PeekabooConfig.get`: `int`,
`bool`, `str` and the `None` key (which shares the plain string getter). -/
inductive OptionType where
  | int
  | bool
  | str
  | noneT
deriving DecidableEq

/-- Python exceptions the embedded code raises or catches. -/
inductive PyError where
  | noSectionError (sec : String)
  | noOptionError (opt sec : String)
  | parsingError (msg : String)
  | valueError (msg : String)
  | peekabooConfigException (msg : String)
  | attributeError (msg : String)
deriving DecidableEq

/-- Association-list lookup with string keys: the observable behaviour of a
Python dictionary read. -/
def alookup {α : Type} : List (String × α) → String → Option α
  | [], _ => Option.none
  | (k, v) :: rest, key => if k = key then some v else alookup rest key

/-- Association-list store with string keys: the observable behaviour of a
Python dictionary write `d[k] = v` (in-place update of an existing key,
insertion of a new one). -/
def aset {α : Type} : List (String × α) → String → α → List (String × α)
  | [], key, v => [(key, v)]
  | (k, w) :: rest, key, v =>
    if k = key then (k, v) :: rest else (k, w) :: aset rest key v

/-- The parsed state of an INI file: sections in file order, each with its
option/value pairs in file-encounter order. -/
abbrev ConfigFile := List (String × List (String × String))

/-- The whitespace characters Python `str.strip` removes. -/
def isPySpace (c : Char) : Bool :=
  c = ' ' || c = '\t' || c = '\n' || c = '\r' || c = '\x0b' || c = '\x0c'

/-- Strip leading and trailing whitespace from a character list. -/
def trimChars (cs : List Char) : List Char :=
  ((cs.dropWhile isPySpace).reverse.dropWhile isPySpace).reverse

/-- A nonempty all-digit character list read as a base-10 number. -/
def digitsToNat? (cs : List Char) : Option Nat :=
  if cs ≠ [] ∧ cs.all Char.isDigit then
    some (cs.foldl (fun a c => a * 10 + (c.toNat - 48)) 0)
  else Option.none

/-- Python `int(s)` applied to a string (the coercion inside the parser's
`getint`): optional surrounding whitespace, optional sign, base-10 digits;
anything else raises `ValueError`. -/
def pyInt (s : String) : Option Int :=
  match trimChars s.data with
  | '-' :: rest => (digitsToNat? rest).map (fun n => -(n : Int))
  | '+' :: rest => (digitsToNat? rest).map (fun n => (n : Int))
  | cs => (digitsToNat? cs).map (fun n => (n : Int))

/-- The value table of Python 2 `RawConfigParser.getboolean`: the
lower-cased raw value must be one of eight recognised literals, otherwise
`ValueError` is raised. -/
def pyBool (s : String) : Option Bool :=
  match (⟨s.data.map Char.toLower⟩ : String) with
  | "1" | "yes" | "true" | "on" => some true
  | "0" | "no" | "false" | "off" => some false
  | _ => Option.none

/-- `type(default)` as used by `PeekabooConfig.get` to pick a getter. -/
def typeFromDefault : ConfValue → OptionType
  | ConfValue.int _ => OptionType.int
  | ConfValue.bool _ => OptionType.bool
  | ConfValue.str _ => OptionType.str
  | ConfValue.none => OptionType.noneT

/-- The getter dispatch of `PeekabooConfig.get` applied to a raw value that
is known to be present: `getint` / `getboolean` / `get` of the underlying
parser.  A failed coercion is the `ValueError` that `int()` or `getboolean`
raises; it is not caught anywhere in `config.py`. -/
def coerceTyped (ty : OptionType) (raw : String) : Except PyError ConfValue :=
  match ty with
  | OptionType.int =>
    match pyInt raw with
    | some n => Except.ok (ConfValue.int n)
    | Option.none =>
      Except.error (PyError.valueError ("invalid literal for int with base 10: " ++ raw))
  | OptionType.bool =>
    match pyBool raw with
    | some b => Except.ok (ConfValue.bool b)
    | Option.none => Except.error (PyError.valueError ("Not a boolean: " ++ raw))
  | OptionType.str => Except.ok (ConfValue.str raw)
  | OptionType.noneT => Except.ok (ConfValue.str raw)

/-- The `levels` table of `PeekabooConfig.get_log_level`: the five exact
level names mapped to the numeric severities of the Python `logging`
module. -/
def levelOf (s : String) : Option Int :=
  if s = "CRITICAL" then some 50
  else if s = "ERROR" then some 40
  else if s = "WARNING" then some 30
  else if s = "INFO" then some 20
  else if s = "DEBUG" then some 10
  else Option.none

/-- The fields of a `PeekabooConfig` instance, as the instance dictionary
the source manipulates through `vars(self)`. -/
abbrev Settings := List (String × ConfValue)

/-- `if option_type is None and default is not None: option_type =
type(default)` — the getter key `PeekabooConfig.get` resolves before
dispatching. -/
def resolveType (optionType : Option OptionType) (default : ConfValue) : OptionType :=
  match optionType with
  | some t => t
  | Option.none => typeFromDefault default

namespace PeekabooConfig

/-- `PeekabooConfig.get` with the explicit `option_type` override parameter
(`None` when the caller does not supply it): looks the option up in the
parsed file, returning the default when the section is absent
(`NoSectionError` is caught and logged) or the option is absent in an
existing section (`NoOptionError` is caught and logged), and otherwise
coercing the raw value with the getter selected by `option_type`, or by
`type(default)` when no override is given. -/
def getTyped (cfg : ConfigFile) (sec opt : String) (default : ConfValue)
    (optionType : Option OptionType) : Except PyError ConfValue :=
  match alookup cfg sec with
  | Option.none => Except.ok default
  | some items =>
    match alookup items opt with
    | Option.none => Except.ok default
    | some raw => coerceTyped (resolveType optionType default) raw

/-- `PeekabooConfig.get` as invoked throughout `config.py`: no
`option_type` override is ever supplied, so the type is inferred from the
default. -/
def get (cfg : ConfigFile) (sec opt : String) (default : ConfValue) :
    Except PyError ConfValue :=
  getTyped cfg sec opt default Option.none

/-- `PeekabooConfig.get_log_level`: fetches the raw value with a `None`
default, returns the caller's default when the option is absent, maps the
five recognised names through the `levels` table and raises
`PeekabooConfigException` for any other present value.  (The final branch
mirrors `levels.has_key` failing on a non-string value; `get` with a `None`
default can only produce a string or `None`, so it is unreachable.) -/
def get_log_level (cfg : ConfigFile) (sec opt : String) (default : ConfValue) :
    Except PyError ConfValue :=
  match get cfg sec opt ConfValue.none with
  | Except.error e => Except.error e
  | Except.ok ConfValue.none => Except.ok default
  | Except.ok (ConfValue.str raw) =>
    match levelOf raw with
    | some n => Except.ok (ConfValue.int n)
    | Option.none =>
      Except.error (PyError.peekabooConfigException ("Unknown log level " ++ raw))
  | Except.ok _ => Except.error (PyError.peekabooConfigException "Unknown log level")

end PeekabooConfig

/-- One entry of the static `config_options` table in
`PeekabooConfig.__init__`: destination field name, section, option, and
whether the entry carries the special getter (`self.get_log_level`, third
list item) instead of plain `self.get`. -/
structure ConfigOption where
  field : String
  sec : String
  opt : String
  custom : Bool
deriving DecidableEq

/-- The static `config_options` table of `PeekabooConfig.__init__`, in
source order. -/
def config_options : List ConfigOption := [
  ⟨"log_level", "logging", "log_level", true⟩,
  ⟨"log_format", "logging", "log_format", false⟩,
  ⟨"user", "global", "user", false⟩,
  ⟨"group", "global", "group", false⟩,
  ⟨"pid_file", "global", "pid_file", false⟩,
  ⟨"sock_file", "global", "socket_file", false⟩,
  ⟨"interpreter", "global", "interpreter", false⟩,
  ⟨"worker_count", "global", "worker_count", false⟩,
  ⟨"sample_base_dir", "global", "sample_base_dir", false⟩,
  ⟨"job_hash_regex", "global", "job_hash_regex", false⟩,
  ⟨"use_debug_module", "global", "use_debug_module", false⟩,
  ⟨"keep_mail_data", "global", "keep_mail_data", false⟩,
  ⟨"db_url", "db", "url", false⟩,
  ⟨"ruleset_config", "ruleset", "config", false⟩,
  ⟨"cuckoo_mode", "cuckoo", "mode", false⟩,
  ⟨"cuckoo_url", "cuckoo", "url", false⟩,
  ⟨"cuckoo_poll_interval", "cuckoo", "poll_interval", false⟩,
  ⟨"cuckoo_storage", "cuckoo", "storage_path", false⟩,
  ⟨"cuckoo_exec", "cuckoo", "exec", false⟩,
  ⟨"cuckoo_submit", "cuckoo", "submit", false⟩,
  ⟨"cluster_instance_id", "cluster", "instance_id", false⟩,
  ⟨"cluster_stale_in_flight_threshold", "cluster", "stale_in_flight_threshold", false⟩,
  ⟨"cluster_duplicate_check_interval", "cluster", "duplicate_check_interval", false⟩]

/-- The hard defaults assigned at the top of `PeekabooConfig.__init__`,
as the instance dictionary after those assignments.  `logging.INFO` is 20,
`1*60*60` is 3600. -/
def defaults : Settings := [
  ("user", ConfValue.str "peekaboo"),
  ("group", ConfValue.str "peekaboo"),
  ("pid_file", ConfValue.str "/var/run/peekaboo/peekaboo.pid"),
  ("sock_file", ConfValue.str "/var/run/peekaboo/peekaboo.sock"),
  ("log_level", ConfValue.int 20),
  ("log_format", ConfValue.str "%(asctime)s - %(name)s - (%(threadName)s) - %(levelname)s - %(message)s"),
  ("interpreter", ConfValue.str "/usr/bin/python -u"),
  ("worker_count", ConfValue.int 3),
  ("sample_base_dir", ConfValue.str "/tmp"),
  ("job_hash_regex", ConfValue.str "/var/lib/amavis/tmp/([^/]+)/parts.*"),
  ("use_debug_module", ConfValue.bool false),
  ("keep_mail_data", ConfValue.bool false),
  ("db_url", ConfValue.str "sqlite:////var/lib/peekaboo/peekaboo.db"),
  ("config_file", ConfValue.str "/opt/peekaboo/etc/peekaboo.conf"),
  ("ruleset_config", ConfValue.str "/opt/peekaboo/etc/ruleset.conf"),
  ("cuckoo_mode", ConfValue.str "api"),
  ("cuckoo_url", ConfValue.str "http://127.0.0.1:8090"),
  ("cuckoo_poll_interval", ConfValue.int 5),
  ("cuckoo_storage", ConfValue.str "/var/lib/peekaboo/.cuckoo/storage"),
  ("cuckoo_exec", ConfValue.str "/opt/cuckoo/bin/cuckoo"),
  ("cuckoo_submit", ConfValue.str "/opt/cuckoo/bin/cuckoo submit"),
  ("cluster_instance_id", ConfValue.int 0),
  ("cluster_stale_in_flight_threshold", ConfValue.int 3600),
  ("cluster_duplicate_check_interval", ConfValue.int 60)]

/-- The settings after the hard defaults and the two optional overrides
from outside (`if log_level: ...` and `if config_file: ...` — Python
truthiness, so a zero level or an empty path is not applied), before the
configuration file is consulted. -/
def preSettings (config_file : Option String) (log_level : Option Int) : Settings :=
  let s1 := match log_level with
    | some l => if l = 0 then defaults else aset defaults "log_level" (ConfValue.int l)
    | Option.none => defaults
  match config_file with
  | some f => if f = "" then s1 else aset s1 "config_file" (ConfValue.str f)
  | Option.none => s1

/-- The value of `self.config_file` when the file-system checks run: the
constructor override when it is truthy, otherwise the hard default. -/
def configFilePath (config_file : Option String) : String :=
  match config_file with
  | some f => if f = "" then "/opt/peekaboo/etc/peekaboo.conf" else f
  | Option.none => "/opt/peekaboo/etc/peekaboo.conf"

/-- The answers of the two file-system checks in `PeekabooConfig.__init__`
(`os.path.isfile` and `os.access(..., os.R_OK)` on `self.config_file`),
modelled as an oracle since the file system is an external collaborator. -/
structure FsState where
  isfile : Bool
  readable : Bool
deriving DecidableEq

namespace PeekabooConfig

/-- The getter a `config_options` entry selects: `self.get_log_level` when
the entry carries it as third item, otherwise `self.get`. -/
def applyGetter (cfg : ConfigFile) (co : ConfigOption) (d : ConfValue) :
    Except PyError ConfValue :=
  if co.custom then get_log_level cfg co.sec co.opt d else get cfg co.sec co.opt d

/-- The resolution loop of `PeekabooConfig.__init__`: for each table entry
read the option with the field's current value as fallback default and
store the result back into the field.  An uncaught exception from a getter
(log-level or coercion failure) aborts construction. -/
def resolveAll (cfg : ConfigFile) : List ConfigOption → Settings → Except PyError Settings
  | [], s => Except.ok s
  | co :: rest, s =>
    match applyGetter cfg co ((alookup s co.field).getD ConfValue.none) with
    | Except.ok v => resolveAll cfg rest (aset s co.field v)
    | Except.error e => Except.error e

/-- `PeekabooConfig.__init__`: hard defaults, command-line overrides, the
two file-system checks (raising `PeekabooConfigException` for a missing or
unreadable file), then the resolution loop over the parsed file.  The two
`setup_logging` invocations and the final debug dump only touch the logging
collaborator and are not part of the configuration state.  `parsed` is the
state of the `SafeConfigParser` after `read`. -/
def init (fs : FsState) (parsed : ConfigFile) (config_file : Option String)
    (log_level : Option Int) : Except PyError Settings :=
  if fs.isfile = false then
    Except.error (PyError.peekabooConfigException
      ("Configuration file \"" ++ configFilePath config_file ++
        "\" does not exist or is not a file."))
  else if fs.readable = false then
    Except.error (PyError.peekabooConfigException
      ("Configuration file \"" ++ configFilePath config_file ++
        "\" is not accessible for reading."))
  else
    resolveAll parsed config_options (preSettings config_file log_level)

end PeekabooConfig

/-- The raw option value the parsed file holds for a section/option pair,
when both exist. -/
def findRaw (cfg : ConfigFile) (sec opt : String) : Option String :=
  (alookup cfg sec).bind (fun items => alookup items opt)

/-- The mapping `get_log_level` applies to a present raw value: the level
table on success, `PeekabooConfigException` on any other string. -/
def logLevelCoerce (raw : String) : Except PyError ConfValue :=
  match levelOf raw with
  | some n => Except.ok (ConfValue.int n)
  | Option.none =>
    Except.error (PyError.peekabooConfigException ("Unknown log level " ++ raw))

/-- The coercion a table entry applies to a present raw value: the level
table for the custom getter, the type-directed coercion keyed on the
default's type for the plain getter. -/
def coerceFor (co : ConfigOption) (d : ConfValue) (raw : String) :
    Except PyError ConfValue :=
  if co.custom then logLevelCoerce raw else coerceTyped (typeFromDefault d) raw

/-- A stored ruleset option value: a single string, or the ordered list
accumulated from dotted-suffix keys. -/
inductive RVal where
  | scalar (s : String)
  | list (l : List String)
deriving DecidableEq

/-- Python `==` between two stored ruleset values, as used by
`rule_enabled` (`... != 'no'`): strings compare by content, lists compare
elementwise, and a list never equals a string. -/
def rvalEq : RVal → RVal → Bool
  | RVal.scalar a, RVal.scalar b => a == b
  | RVal.list a, RVal.list b => a == b
  | _, _ => false

/-- One rule's option dictionary. -/
abbrev RuleMap := List (String × RVal)

/-- The whole `ruleset_config` dictionary: rule name to option dictionary. -/
abbrev RulesetMap := List (String × RuleMap)

/-- The outcome of `SafeConfigParser().read(path)` on the ruleset file:
a file that cannot be opened is silently skipped by `read` (leaving the
parser empty), a structurally invalid file makes `read` raise a parsing
error (`ParsingError` / `MissingSectionHeaderError`, neither of which is a
`NoSectionError` or `NoOptionError`), and otherwise `read` yields the
parsed sections. -/
inductive ReadResult where
  | unreadable
  | parseFailure (msg : String)
  | parsed (cfg : ConfigFile)
deriving DecidableEq

/-- `'.' in setting`. -/
def hasDot (setting : String) : Bool := setting.data.any (fun c => c = '.')

/-- `setting.split('.')[0]`: the portion of an option name before its
first dot (the whole name when there is no dot). -/
def keyStem (setting : String) : String := ⟨setting.data.takeWhile (fun c => c ≠ '.')⟩

/-- The inner loop of `PeekabooRulesetConfiguration.__init__` over one
section's `(setting, value)` pairs: a dotted setting appends to the list at
its stem, creating the list when the stem is not yet a key; appending when
the stem already holds a scalar string is Python `str.append`, which raises
`AttributeError`; an undotted setting stores a scalar, overwriting any
previous value.  On error the dictionary state built so far is returned
alongside the exception (the object attribute has already been mutated). -/
def procItems : RuleMap → List (String × String) → Except (PyError × RuleMap) RuleMap
  | rm, [] => Except.ok rm
  | rm, (setting, value) :: rest =>
    if hasDot setting then
      match alookup rm (keyStem setting) with
      | Option.none =>
        procItems (aset rm (keyStem setting) (RVal.list [value])) rest
      | some (RVal.list l) =>
        procItems (aset rm (keyStem setting) (RVal.list (l ++ [value]))) rest
      | some (RVal.scalar _) =>
        Except.error (PyError.attributeError "str object has no attribute append", rm)
    else
      procItems (aset rm setting (RVal.scalar value)) rest

/-- The outer loop of `PeekabooRulesetConfiguration.__init__` over the
parsed sections: each section's entry is created (empty) when absent and
then filled by the inner loop.  On error the partially filled dictionary
accompanies the exception. -/
def procSections : RulesetMap → ConfigFile → Except (PyError × RulesetMap) RulesetMap
  | m, [] => Except.ok m
  | m, (sec, items) :: rest =>
    match procItems ((alookup m sec).getD []) items with
    | Except.ok rm => procSections (aset m sec rm) rest
    | Except.error (e, rmPartial) => Except.error (e, aset m sec rmPartial)

/-- The ruleset configuration object: the file path it was created from and
the nested `ruleset_config` dictionary. -/
structure PeekabooRulesetConfiguration where
  config_file : String
  ruleset_config : RulesetMap
deriving DecidableEq

namespace PeekabooRulesetConfiguration

/-- `PeekabooRulesetConfiguration.__init__`: runs `read` and the section
loops inside a `try` whose handlers catch exactly `NoSectionError` and
`NoOptionError`, log them, and keep whatever was stored in
`self.ruleset_config` before the failure.  Any other exception (the parsing
error raised by `read` on a structurally invalid file, or the
`AttributeError` from appending to a scalar) propagates and no object is
returned. -/
def init (config_file : String) (r : ReadResult) :
    Except PyError PeekabooRulesetConfiguration :=
  match (match r with
         | ReadResult.unreadable => Except.ok []
         | ReadResult.parseFailure msg =>
           Except.error (PyError.parsingError msg, ([] : RulesetMap))
         | ReadResult.parsed cfg => procSections [] cfg) with
  | Except.ok m => Except.ok ⟨config_file, m⟩
  | Except.error (PyError.noSectionError _, pm) => Except.ok ⟨config_file, pm⟩
  | Except.error (PyError.noOptionError _ _, pm) => Except.ok ⟨config_file, pm⟩
  | Except.error (e, _) => Except.error e

/-- `rule_config`: the rule's option dictionary, or an empty one when the
rule has no section. -/
def rule_config (c : PeekabooRulesetConfiguration) (rule : String) : RuleMap :=
  (alookup c.ruleset_config rule).getD []

/-- `rule_enabled`: `self.rule_config(rule).get('enabled', 'yes') != 'no'`. -/
def rule_enabled (c : PeekabooRulesetConfiguration) (rule : String) : Bool :=
  !(rvalEq ((alookup (rule_config c rule) "enabled").getD (RVal.scalar "yes"))
      (RVal.scalar "no"))

end PeekabooRulesetConfiguration

/-- Does some option name of the section use the dotted-suffix form with
the given stem? -/
def hasDotted (items : List (String × String)) (key : String) : Bool :=
  items.any (fun it => hasDot it.1 && keyStem it.1 == key)

/-- Does the section contain an undotted occurrence of the given option
name? -/
def hasPlain (items : List (String × String)) (key : String) : Bool :=
  items.any (fun it => !(hasDot it.1) && it.1 == key)

/-! ## Dictionary lemmas -/

/-- Looking a key up after a store: the stored value at the stored key,
the old map elsewhere. -/
theorem alookup_aset {α : Type} (m : List (String × α)) (k key : String) (v : α) :
    alookup (aset m k v) key = if k = key then some v else alookup m key := by
  induction m with
  | nil => simp [aset, alookup]
  | cons hd tl ih =>
    obtain ⟨k0, v0⟩ := hd
    by_cases h0 : k0 = k
    · subst h0
      by_cases h1 : k0 = key <;> simp [aset, alookup, h1]
    · by_cases h1 : k0 = key
      · subst h1
        have hk : ¬(k = k0) := fun hc => h0 hc.symm
        simp [aset, alookup, h0, hk]
      · simp [aset, alookup, h0, h1, ih]

theorem alookup_aset_self {α : Type} (m : List (String × α)) (k : String) (v : α) :
    alookup (aset m k v) k = some v := by
  simp [alookup_aset]

theorem alookup_aset_ne {α : Type} (m : List (String × α)) (k key : String) (v : α)
    (h : k ≠ key) : alookup (aset m k v) key = alookup m key := by
  simp [alookup_aset, h]

theorem alookup_aset_isSome {α : Type} (m : List (String × α)) (k key : String) (v : α)
    (h : (alookup m key).isSome) : (alookup (aset m k v) key).isSome := by
  rw [alookup_aset]
  by_cases h0 : k = key <;> simp [h0, h]

/-! ## Shape of the option getters -/

/-- `PeekabooConfig.get` in terms of the raw file content: the default when
the section or option is absent, the type-directed coercion of the raw
value otherwise. -/
theorem get_eq_findRaw (cfg : ConfigFile) (sec opt : String) (d : ConfValue) :
    PeekabooConfig.get cfg sec opt d =
      (match findRaw cfg sec opt with
       | Option.none => Except.ok d
       | some raw => coerceTyped (typeFromDefault d) raw) := by
  unfold PeekabooConfig.get PeekabooConfig.getTyped findRaw
  cases alookup cfg sec with
  | none => rfl
  | some items =>
    cases alookup items opt with
    | none => rfl
    | some raw => rfl

/-- `PeekabooConfig.get_log_level` in terms of the raw file content: the
caller's default when the option is absent, the level-name mapping
otherwise. -/
theorem get_log_level_eq_findRaw (cfg : ConfigFile) (sec opt : String) (d : ConfValue) :
    PeekabooConfig.get_log_level cfg sec opt d =
      (match findRaw cfg sec opt with
       | Option.none => Except.ok d
       | some raw => logLevelCoerce raw) := by
  unfold PeekabooConfig.get_log_level
  rw [get_eq_findRaw]
  cases findRaw cfg sec opt with
  | none => rfl
  | some raw =>
    cases hl : levelOf raw <;>
      simp [coerceTyped, typeFromDefault, logLevelCoerce, hl]

/-- A table entry's getter in terms of the raw file content. -/
theorem applyGetter_eq_findRaw (cfg : ConfigFile) (co : ConfigOption) (d : ConfValue) :
    PeekabooConfig.applyGetter cfg co d =
      (match findRaw cfg co.sec co.opt with
       | Option.none => Except.ok d
       | some raw => coerceFor co d raw) := by
  unfold PeekabooConfig.applyGetter coerceFor
  cases hc : co.custom
  · rw [get_eq_findRaw]
    simp [hc]
  · rw [get_log_level_eq_findRaw]
    simp [hc]

/-! ## Claim theorems: the main configuration -/

/-- C2: for every section, option and default value, `PeekabooConfig.get`
returns the supplied default unchanged — without raising — both when the
section is absent from the parsed file and when the option is absent within
an existing section. -/
theorem get_returns_default_when_absent :
    ∀ (cfg : ConfigFile) (sec opt : String) (d : ConfValue),
      (alookup cfg sec = Option.none →
        PeekabooConfig.get cfg sec opt d = Except.ok d) ∧
      (∀ items, alookup cfg sec = some items → alookup items opt = Option.none →
        PeekabooConfig.get cfg sec opt d = Except.ok d) := by
  intro cfg sec opt d
  constructor
  · intro h
    simp [PeekabooConfig.get, PeekabooConfig.getTyped, h]
  · intro items h1 h2
    simp [PeekabooConfig.get, PeekabooConfig.getTyped, h1, h2]

theorem get_returns_default_when_absent_witness :
    PeekabooConfig.get [("global", [("user", "peekaboo")])] "db" "url" (ConfValue.int 7) =
      Except.ok (ConfValue.int 7) :=
  (get_returns_default_when_absent [("global", [("user", "peekaboo")])] "db" "url"
    (ConfValue.int 7)).1 rfl

/-- C3: `get_log_level` maps the five exact level names to their
severities, returns the caller-supplied default unchanged when the option
is absent, and raises `PeekabooConfigException` carrying the offending
string for any other present value. -/
theorem get_log_level_exact_names :
    ∀ (cfg : ConfigFile) (sec opt : String) (d : ConfValue),
      (findRaw cfg sec opt = some "CRITICAL" →
        PeekabooConfig.get_log_level cfg sec opt d = Except.ok (ConfValue.int 50)) ∧
      (findRaw cfg sec opt = some "ERROR" →
        PeekabooConfig.get_log_level cfg sec opt d = Except.ok (ConfValue.int 40)) ∧
      (findRaw cfg sec opt = some "WARNING" →
        PeekabooConfig.get_log_level cfg sec opt d = Except.ok (ConfValue.int 30)) ∧
      (findRaw cfg sec opt = some "INFO" →
        PeekabooConfig.get_log_level cfg sec opt d = Except.ok (ConfValue.int 20)) ∧
      (findRaw cfg sec opt = some "DEBUG" →
        PeekabooConfig.get_log_level cfg sec opt d = Except.ok (ConfValue.int 10)) ∧
      (findRaw cfg sec opt = Option.none →
        PeekabooConfig.get_log_level cfg sec opt d = Except.ok d) ∧
      (∀ lv, findRaw cfg sec opt = some lv → levelOf lv = Option.none →
        PeekabooConfig.get_log_level cfg sec opt d =
          Except.error (PyError.peekabooConfigException ("Unknown log level " ++ lv))) := by
  intro cfg sec opt d
  refine ⟨fun h => ?_, fun h => ?_, fun h => ?_, fun h => ?_, fun h => ?_,
    fun h => ?_, fun lv h hlv => ?_⟩
  · rw [get_log_level_eq_findRaw, h]; rfl
  · rw [get_log_level_eq_findRaw, h]; rfl
  · rw [get_log_level_eq_findRaw, h]; rfl
  · rw [get_log_level_eq_findRaw, h]; rfl
  · rw [get_log_level_eq_findRaw, h]; rfl
  · rw [get_log_level_eq_findRaw, h]
  · rw [get_log_level_eq_findRaw, h]
    simp [logLevelCoerce, hlv]

theorem get_log_level_exact_names_witness :
    PeekabooConfig.get_log_level [("logging", [("log_level", "DEBUG")])] "logging"
      "log_level" (ConfValue.int 20) = Except.ok (ConfValue.int 10) :=
  (get_log_level_exact_names [("logging", [("log_level", "DEBUG")])] "logging"
    "log_level" (ConfValue.int 20)).2.2.2.2.1 rfl

/-- C5: a present raw value whose coercion to the type inferred from the
default fails makes `PeekabooConfig.get` propagate that error instead of
returning the default — the `try` only catches the two absence errors. -/
theorem get_propagates_coercion_failure :
    ∀ (cfg : ConfigFile) (sec opt : String) (d : ConfValue) (raw : String) (e : PyError),
      findRaw cfg sec opt = some raw →
      coerceTyped (typeFromDefault d) raw = Except.error e →
      PeekabooConfig.get cfg sec opt d = Except.error e := by
  intro cfg sec opt d raw e h hc
  rw [get_eq_findRaw, h]
  exact hc

theorem get_propagates_coercion_failure_witness :
    PeekabooConfig.get [("cuckoo", [("poll_interval", "abc")])] "cuckoo" "poll_interval"
      (ConfValue.int 5) =
      Except.error (PyError.valueError "invalid literal for int with base 10: abc") :=
  get_propagates_coercion_failure [("cuckoo", [("poll_interval", "abc")])] "cuckoo"
    "poll_interval" (ConfValue.int 5) "abc"
    (PyError.valueError "invalid literal for int with base 10: abc") rfl rfl

/-- C4: construction fails with the missing-file `PeekabooConfigException`
whenever the resolved path is not an existing regular file, and with the
unreadable-file one whenever the file exists but is not readable; in both
cases the result is an error, never a (partial) settings dictionary. -/
theorem init_fails_on_missing_or_unreadable :
    ∀ (fs : FsState) (parsed : ConfigFile) (cf : Option String) (ll : Option Int),
      (fs.isfile = false →
        PeekabooConfig.init fs parsed cf ll = Except.error (PyError.peekabooConfigException
          ("Configuration file \"" ++ configFilePath cf ++
            "\" does not exist or is not a file."))) ∧
      (fs.isfile = true → fs.readable = false →
        PeekabooConfig.init fs parsed cf ll = Except.error (PyError.peekabooConfigException
          ("Configuration file \"" ++ configFilePath cf ++
            "\" is not accessible for reading."))) := by
  intro fs parsed cf ll
  constructor
  · intro h
    unfold PeekabooConfig.init
    simp [h]
  · intro h1 h2
    unfold PeekabooConfig.init
    simp [h1, h2]

/-- A table entry's getter returns the fallback default when the file does
not define the option. -/
theorem applyGetter_absent (cfg : ConfigFile) (co : ConfigOption) (d : ConfValue)
    (h : findRaw cfg co.sec co.opt = Option.none) :
    PeekabooConfig.applyGetter cfg co d = Except.ok d := by
  rw [applyGetter_eq_findRaw, h]

/-- A table entry's getter applies the entry's coercion to a raw value the
file defines. -/
theorem applyGetter_present (cfg : ConfigFile) (co : ConfigOption) (d : ConfValue)
    (raw : String) (h : findRaw cfg co.sec co.opt = some raw) :
    PeekabooConfig.applyGetter cfg co d = coerceFor co d raw := by
  rw [applyGetter_eq_findRaw, h]

/-- The resolution loop leaves fields outside the processed table entries
untouched. -/
theorem resolveAll_ok_preserves (cfg : ConfigFile) :
    ∀ (l : List ConfigOption) (s sF : Settings) (k : String),
      PeekabooConfig.resolveAll cfg l s = Except.ok sF →
      k ∉ l.map (fun co => co.field) →
      alookup sF k = alookup s k := by
  intro l
  induction l with
  | nil =>
    intro s sF k h _
    simp only [PeekabooConfig.resolveAll, Except.ok.injEq] at h
    rw [h]
  | cons co0 rest ih =>
    intro s sF k h hk
    simp only [List.map_cons, List.mem_cons, not_or] at hk
    obtain ⟨hk1, hk2⟩ := hk
    cases hg : PeekabooConfig.applyGetter cfg co0 ((alookup s co0.field).getD ConfValue.none) with
    | error e =>
      simp only [PeekabooConfig.resolveAll, hg] at h
      exact absurd h (by simp)
    | ok v0 =>
      simp only [PeekabooConfig.resolveAll, hg] at h
      rw [ih (aset s co0.field v0) sF k h hk2]
      exact alookup_aset_ne s co0.field k v0 (fun hc => hk1 hc.symm)

/-- The resolution loop, on success and for a table whose destination
fields are distinct, stores into each entry's field exactly the result of
that entry's getter called with the entry's starting field value as the
fallback default. -/
theorem resolveAll_ok_mem (cfg : ConfigFile) :
    ∀ (l : List ConfigOption) (s sF : Settings),
      (l.map (fun co => co.field)).Nodup →
      PeekabooConfig.resolveAll cfg l s = Except.ok sF →
      ∀ co ∈ l, ∃ v,
        PeekabooConfig.applyGetter cfg co ((alookup s co.field).getD ConfValue.none) =
          Except.ok v ∧
        alookup sF co.field = some v := by
  intro l
  induction l with
  | nil =>
    intro s sF _ _ co hco
    exact absurd hco (List.not_mem_nil co)
  | cons co0 rest ih =>
    intro s sF hnd h co hco
    simp only [List.map_cons, List.nodup_cons] at hnd
    obtain ⟨hni, hnd2⟩ := hnd
    cases hg : PeekabooConfig.applyGetter cfg co0 ((alookup s co0.field).getD ConfValue.none) with
    | error e =>
      simp only [PeekabooConfig.resolveAll, hg] at h
      exact absurd h (by simp)
    | ok v0 =>
      simp only [PeekabooConfig.resolveAll, hg] at h
      rcases List.mem_cons.mp hco with hco0 | hcor
      · subst hco0
        refine ⟨v0, hg, ?_⟩
        rw [resolveAll_ok_preserves cfg rest (aset s co.field v0) sF co.field h hni]
        exact alookup_aset_self s co.field v0
      · obtain ⟨v, hgv, hlv⟩ := ih (aset s co0.field v0) sF hnd2 h co hcor
        refine ⟨v, ?_, hlv⟩
        have hne : co0.field ≠ co.field := by
          intro hc
          exact hni (hc ▸ List.mem_map_of_mem (fun x => x.field) hcor)
        rw [alookup_aset_ne s co0.field co.field v0 hne] at hgv
        exact hgv

/-- Every destination field of the static table has a hard default. -/
theorem defaults_has_fields :
    ∀ co ∈ config_options, (alookup defaults co.field).isSome := by
  decide

/-- Every destination field of the static table is present after the
command-line overrides are applied. -/
theorem preSettings_has_fields (cf : Option String) (ll : Option Int) :
    ∀ co ∈ config_options, (alookup (preSettings cf ll) co.field).isSome := by
  intro co hco
  have hd := defaults_has_fields co hco
  unfold preSettings
  cases ll with
  | none =>
    cases cf with
    | none => exact hd
    | some f =>
      by_cases hf : f = ""
      · simp only [hf, if_pos rfl]
        exact hd
      · simp only [if_neg hf]
        exact alookup_aset_isSome defaults "config_file" co.field (ConfValue.str f) hd
  | some l =>
    by_cases hl : l = 0
    · simp only [hl, if_pos rfl]
      cases cf with
      | none => exact hd
      | some f =>
        by_cases hf : f = ""
        · simp only [hf, if_pos rfl]
          exact hd
        · simp only [if_neg hf]
          exact alookup_aset_isSome defaults "config_file" co.field (ConfValue.str f) hd
    · simp only [if_neg hl]
      have h1 := alookup_aset_isSome defaults "log_level" co.field (ConfValue.int l) hd
      cases cf with
      | none => exact h1
      | some f =>
        by_cases hf : f = ""
        · simp only [hf, if_pos rfl]
          exact h1
        · simp only [if_neg hf]
          exact alookup_aset_isSome _ "config_file" co.field (ConfValue.str f) h1

/-- C1: for every descriptor in the static table, a successful construction
assigns the field the file value coerced by that descriptor's getter with
the type taken from the field's pre-file value, when the file defines the
section/option; and leaves the field at its pre-file default or
command-line override when the file omits it. -/
theorem config_resolves_each_descriptor :
    ∀ (fs : FsState) (parsed : ConfigFile) (cf : Option String) (ll : Option Int)
      (sF : Settings),
      PeekabooConfig.init fs parsed cf ll = Except.ok sF →
      ∀ co ∈ config_options,
        (findRaw parsed co.sec co.opt = Option.none →
          alookup sF co.field = alookup (preSettings cf ll) co.field) ∧
        (∀ raw w, findRaw parsed co.sec co.opt = some raw →
          coerceFor co ((alookup (preSettings cf ll) co.field).getD ConfValue.none) raw =
            Except.ok w →
          alookup sF co.field = some w) := by
  intro fs parsed cf ll sF h co hco
  unfold PeekabooConfig.init at h
  by_cases h1 : fs.isfile = false
  · simp [h1] at h
  · by_cases h2 : fs.readable = false
    · simp [h1, h2] at h
    · simp only [if_neg h1, if_neg h2] at h
      have hnd : (config_options.map (fun co => co.field)).Nodup := by decide
      obtain ⟨v, hg, hlk⟩ :=
        resolveAll_ok_mem parsed config_options (preSettings cf ll) sF hnd h co hco
      obtain ⟨d0, hd0⟩ :=
        Option.isSome_iff_exists.mp (preSettings_has_fields cf ll co hco)
      constructor
      · intro habs
        rw [applyGetter_absent parsed co _ habs] at hg
        injection hg with hv
        rw [hlk, hd0, ← hv, hd0]
        rfl
      · intro raw w hraw hcoe
        rw [applyGetter_present parsed co _ raw hraw, hcoe] at hg
        injection hg with hvw
        rw [hlk, hvw]

theorem config_resolves_each_descriptor_witness :
    alookup (aset defaults "user" (ConfValue.str "bird")) "user" =
      some (ConfValue.str "bird") :=
  (config_resolves_each_descriptor ⟨true, true⟩ [("global", [("user", "bird")])]
    Option.none Option.none (aset defaults "user" (ConfValue.str "bird")) rfl
    ⟨"user", "global", "user", false⟩ (by decide)).2 "bird" (ConfValue.str "bird") rfl rfl

theorem init_fails_on_missing_or_unreadable_witness :
    PeekabooConfig.init ⟨false, false⟩ [] Option.none Option.none =
      Except.error (PyError.peekabooConfigException
        ("Configuration file \"" ++ configFilePath Option.none ++
          "\" does not exist or is not a file.")) :=
  (init_fails_on_missing_or_unreadable ⟨false, false⟩ [] Option.none Option.none).1 rfl

/-! ## Claim theorems: the ruleset configuration -/

/-- C6: a ruleset section with keys `foo.0=a`, `foo.1=b`, `bar=c` parses to
the mapping with `foo` the ordered list `[a, b]` and `bar` the scalar `c`;
with the two dotted keys encountered in the opposite order the list is
`[b, a]`, so the list order is file-encounter order, not suffix order. -/
theorem ruleset_parse_dotted_and_scalar :
    (∃ c, PeekabooRulesetConfiguration.init "ruleset.conf"
        (ReadResult.parsed [("somerule", [("foo.0", "a"), ("foo.1", "b"), ("bar", "c")])]) =
        Except.ok c ∧
      alookup (PeekabooRulesetConfiguration.rule_config c "somerule") "foo" =
        some (RVal.list ["a", "b"]) ∧
      alookup (PeekabooRulesetConfiguration.rule_config c "somerule") "bar" =
        some (RVal.scalar "c")) ∧
    (∃ c, PeekabooRulesetConfiguration.init "ruleset.conf"
        (ReadResult.parsed [("somerule", [("foo.1", "b"), ("foo.0", "a"), ("bar", "c")])]) =
        Except.ok c ∧
      alookup (PeekabooRulesetConfiguration.rule_config c "somerule") "foo" =
        some (RVal.list ["b", "a"])) :=
  ⟨⟨⟨"ruleset.conf", [("somerule", [("foo", RVal.list ["a", "b"]), ("bar", RVal.scalar "c")])]⟩,
    rfl, rfl, rfl⟩,
   ⟨⟨"ruleset.conf", [("somerule", [("foo", RVal.list ["b", "a"]), ("bar", RVal.scalar "c")])]⟩,
    rfl, rfl⟩⟩

/-- C7: `rule_enabled` is `false` exactly when the rule's option mapping
stores the scalar string `no` under `enabled`; it is `true` in every other
case (no section, no `enabled` key, a different scalar, or a list). -/
theorem rule_enabled_iff_exact_no :
    ∀ (c : PeekabooRulesetConfiguration) (rule : String),
      PeekabooRulesetConfiguration.rule_enabled c rule = false ↔
      alookup (PeekabooRulesetConfiguration.rule_config c rule) "enabled" =
        some (RVal.scalar "no") := by
  intro c rule
  unfold PeekabooRulesetConfiguration.rule_enabled
  cases hl : alookup (PeekabooRulesetConfiguration.rule_config c rule) "enabled" with
  | none => simp [rvalEq]
  | some v =>
    cases v with
    | scalar s => simp [rvalEq]
    | list l => simp [rvalEq]

/-- C8 counterexample: a ruleset file that is structurally invalid at the
file level (the parser's `read` raises a parsing error) makes construction
raise — the handlers catch only section- and option-missing errors, so the
parsing error propagates instead of being logged. -/
theorem ruleset_invalid_file_raises :
    PeekabooRulesetConfiguration.init "ruleset.conf"
      (ReadResult.parseFailure "File contains no section headers") =
      Except.error (PyError.parsingError "File contains no section headers") := rfl

/-- C8 (amended): for a ruleset file path that cannot be opened,
construction does not raise — `read` skips the file silently — and yields
the empty mapping, on which `rule_enabled` is `true` for every rule name;
but for a file that is structurally invalid at the file level the parser's
error propagates out of construction uncaught. -/
theorem ruleset_missing_file_lenient :
    ∀ (path msg rule : String),
      PeekabooRulesetConfiguration.init path ReadResult.unreadable =
        Except.ok ⟨path, []⟩ ∧
      PeekabooRulesetConfiguration.rule_enabled ⟨path, []⟩ rule = true ∧
      PeekabooRulesetConfiguration.init path (ReadResult.parseFailure msg) =
        Except.error (PyError.parsingError msg) := by
  intro path msg rule
  exact ⟨rfl, rfl, rfl⟩

/-- The inner item loop only ever raises `AttributeError`. -/
theorem procItems_error_attr :
    ∀ (items : List (String × String)) (rm : RuleMap) (e : PyError) (pm : RuleMap),
      procItems rm items = Except.error (e, pm) →
      ∃ msg, e = PyError.attributeError msg := by
  intro items
  induction items with
  | nil =>
    intro rm e pm h
    simp [procItems] at h
  | cons it rest ih =>
    intro rm e pm h
    obtain ⟨setting, value⟩ := it
    cases hdot : hasDot setting with
    | false =>
      simp [procItems, hdot] at h
      exact ih _ e pm h
    | true =>
      cases halk : alookup rm (keyStem setting) with
      | none =>
        simp [procItems, hdot, halk] at h
        exact ih _ e pm h
      | some v =>
        cases v with
        | list l =>
          simp [procItems, hdot, halk] at h
          exact ih _ e pm h
        | scalar s =>
          simp [procItems, hdot, halk] at h
          exact ⟨"str object has no attribute append", h.1.symm⟩

/-- The section loop only ever raises `AttributeError`. -/
theorem procSections_error_attr :
    ∀ (cfg : ConfigFile) (m : RulesetMap) (e : PyError) (pm : RulesetMap),
      procSections m cfg = Except.error (e, pm) →
      ∃ msg, e = PyError.attributeError msg := by
  intro cfg
  induction cfg with
  | nil =>
    intro m e pm h
    simp [procSections] at h
  | cons sct rest ih =>
    intro m e pm h
    obtain ⟨sec, items⟩ := sct
    cases hpi : procItems ((alookup m sec).getD []) items with
    | ok rm =>
      simp [procSections, hpi] at h
      exact ih _ e pm h
    | error ep =>
      obtain ⟨e0, pm0⟩ := ep
      simp [procSections, hpi] at h
      obtain ⟨msg, hmsg⟩ := procItems_error_attr items _ e0 pm0 hpi
      exact ⟨msg, h.1 ▸ hmsg⟩

/-- A successful ruleset construction from a parsed file is exactly a
successful run of the section loop: the swallowed section- and
option-missing errors cannot occur in it. -/
theorem rulesetInit_parsed_ok :
    ∀ (path : String) (cfg : ConfigFile) (c : PeekabooRulesetConfiguration),
      PeekabooRulesetConfiguration.init path (ReadResult.parsed cfg) = Except.ok c →
      ∃ m, procSections [] cfg = Except.ok m ∧ c = ⟨path, m⟩ := by
  intro path cfg c h
  cases hps : procSections [] cfg with
  | ok m =>
    refine ⟨m, rfl, ?_⟩
    simp [PeekabooRulesetConfiguration.init, hps] at h
    exact h.symm
  | error ep =>
    obtain ⟨e, pm⟩ := ep
    obtain ⟨msg, hmsg⟩ := procSections_error_attr cfg [] e pm hps
    subst hmsg
    simp [PeekabooRulesetConfiguration.init, hps] at h

/-- The section loop leaves rules outside the processed sections
untouched. -/
theorem procSections_ok_preserves :
    ∀ (cfg : ConfigFile) (m m' : RulesetMap) (r : String),
      procSections m cfg = Except.ok m' →
      r ∉ cfg.map Prod.fst →
      alookup m' r = alookup m r := by
  intro cfg
  induction cfg with
  | nil =>
    intro m m' r h _
    simp [procSections] at h
    rw [h]
  | cons sct rest ih =>
    intro m m' r h hr
    obtain ⟨sec, items⟩ := sct
    simp only [List.map_cons, List.mem_cons, not_or] at hr
    obtain ⟨hr1, hr2⟩ := hr
    cases hpi : procItems ((alookup m sec).getD []) items with
    | error ep =>
      obtain ⟨e0, pm0⟩ := ep
      simp [procSections, hpi] at h
    | ok rm =>
      simp [procSections, hpi] at h
      rw [ih (aset m sec rm) m' r h hr2]
      exact alookup_aset_ne m sec r rm (fun hc => hr1 hc.symm)

/-- For a parsed file with unique section names, a successful section loop
stores under each section name exactly the inner loop's result on that
section's items, started from the empty dictionary. -/
theorem procSections_ok_section :
    ∀ (cfg : ConfigFile) (m m' : RulesetMap) (r : String)
      (items : List (String × String)),
      (cfg.map Prod.fst).Nodup →
      procSections m cfg = Except.ok m' →
      alookup cfg r = some items →
      alookup m r = Option.none →
      ∃ rm, procItems [] items = Except.ok rm ∧ alookup m' r = some rm := by
  intro cfg
  induction cfg with
  | nil =>
    intro m m' r items _ _ hfind _
    simp [alookup] at hfind
  | cons sct rest ih =>
    intro m m' r items hnd h hfind hmr
    obtain ⟨sec, its⟩ := sct
    simp only [List.map_cons, List.nodup_cons] at hnd
    obtain ⟨hni, hnd2⟩ := hnd
    by_cases hsec : sec = r
    · subst hsec
      simp [alookup] at hfind
      subst hfind
      cases hpi : procItems ((alookup m sec).getD []) its with
      | error ep =>
        obtain ⟨e0, pm0⟩ := ep
        simp [procSections, hpi] at h
      | ok rm =>
        simp [procSections, hpi] at h
        rw [hmr] at hpi
        refine ⟨rm, hpi, ?_⟩
        rw [procSections_ok_preserves rest (aset m sec rm) m' sec h hni]
        exact alookup_aset_self m sec rm
    · simp [alookup, hsec] at hfind
      cases hpi : procItems ((alookup m sec).getD []) its with
      | error ep =>
        obtain ⟨e0, pm0⟩ := ep
        simp [procSections, hpi] at h
      | ok rm =>
        simp [procSections, hpi] at h
        have hm2 : alookup (aset m sec rm) r = Option.none := by
          rw [alookup_aset_ne m sec r rm hsec]
          exact hmr
        exact ih (aset m sec rm) m' r items hnd2 h hfind hm2

/-- Inner-loop invariant: with no plain occurrence of a key among the
items, the key ends up holding a list whenever it already holds one or it
starts absent and some dotted occurrence of it appears. -/
theorem procItems_dotted_only_list :
    ∀ (items : List (String × String)) (rm rm' : RuleMap) (key : String),
      procItems rm items = Except.ok rm' →
      hasPlain items key = false →
      ((∃ l, alookup rm key = some (RVal.list l)) ∨
        (alookup rm key = Option.none ∧ hasDotted items key = true)) →
      ∃ l, alookup rm' key = some (RVal.list l) := by
  intro items
  induction items with
  | nil =>
    intro rm rm' key h _ hstart
    rcases hstart with ⟨l, hl⟩ | ⟨_, hdt⟩
    · simp [procItems] at h
      exact ⟨l, h ▸ hl⟩
    · simp [hasDotted] at hdt
  | cons it rest ih =>
    intro rm rm' key h hpl hstart
    obtain ⟨setting, value⟩ := it
    simp only [hasPlain, List.any_cons, Bool.or_eq_false_iff] at hpl
    obtain ⟨hpl1, hpl2⟩ := hpl
    cases hdot : hasDot setting with
    | false =>
      rw [hdot] at hpl1
      simp at hpl1
      simp [procItems, hdot] at h
      apply ih _ rm' key h hpl2
      have hpr : alookup (aset rm setting (RVal.scalar value)) key = alookup rm key :=
        alookup_aset_ne rm setting key _ hpl1
      rcases hstart with ⟨l, hl⟩ | ⟨hn, hdt⟩
      · exact Or.inl ⟨l, by rw [hpr]; exact hl⟩
      · refine Or.inr ⟨by rw [hpr]; exact hn, ?_⟩
        simpa [hasDotted, hdot] using hdt
    | true =>
      by_cases hks : keyStem setting = key
      · cases halk : alookup rm (keyStem setting) with
        | none =>
          simp [procItems, hdot, halk] at h
          apply ih _ rm' key h hpl2
          refine Or.inl ⟨[value], ?_⟩
          rw [hks]
          exact alookup_aset_self rm key (RVal.list [value])
        | some v =>
          cases v with
          | scalar s =>
            simp [procItems, hdot, halk] at h
          | list l =>
            simp [procItems, hdot, halk] at h
            apply ih _ rm' key h hpl2
            refine Or.inl ⟨l ++ [value], ?_⟩
            rw [hks]
            exact alookup_aset_self rm key (RVal.list (l ++ [value]))
      · cases halk : alookup rm (keyStem setting) with
        | none =>
          simp [procItems, hdot, halk] at h
          apply ih _ rm' key h hpl2
          have hpr :
              alookup (aset rm (keyStem setting) (RVal.list [value])) key = alookup rm key :=
            alookup_aset_ne rm (keyStem setting) key _ hks
          rcases hstart with ⟨l, hl⟩ | ⟨hn, hdt⟩
          · exact Or.inl ⟨l, by rw [hpr]; exact hl⟩
          · refine Or.inr ⟨by rw [hpr]; exact hn, ?_⟩
            simpa [hasDotted, hdot, hks] using hdt
        | some v =>
          cases v with
          | scalar s =>
            simp [procItems, hdot, halk] at h
          | list l =>
            simp [procItems, hdot, halk] at h
            apply ih _ rm' key h hpl2
            have hpr :
                alookup (aset rm (keyStem setting) (RVal.list (l ++ [value]))) key =
                  alookup rm key :=
              alookup_aset_ne rm (keyStem setting) key _ hks
            rcases hstart with ⟨l2, hl⟩ | ⟨hn, hdt⟩
            · exact Or.inl ⟨l2, by rw [hpr]; exact hl⟩
            · refine Or.inr ⟨by rw [hpr]; exact hn, ?_⟩
              simpa [hasDotted, hdot, hks] using hdt

/-- C9 counterexample: in a section holding `foo.0=a` and then the plain
key `foo=x`, the dotted form appears for `foo` yet the final stored value
is the scalar `x` — the later plain assignment overwrites the accumulated
list, so the dotted form does not force list accumulation. -/
theorem ruleset_plain_overwrites_dotted :
    PeekabooRulesetConfiguration.init "rs.conf"
      (ReadResult.parsed [("r", [("foo.0", "a"), ("foo", "x")])]) =
      Except.ok ⟨"rs.conf", [("r", [("foo", RVal.scalar "x")])]⟩ ∧
    hasDotted [("foo.0", "a"), ("foo", "x")] "foo" = true := ⟨rfl, rfl⟩

/-- C9 (amended): after a successful construction from a parsed file with
unique section names, a key that appears in dotted-suffix form in a rule's
section and has no plain occurrence there is stored as an ordered list;
a later plain occurrence instead overwrites the accumulated list with a
scalar. -/
theorem ruleset_dotted_only_key_is_list :
    ∀ (path : String) (cfg : ConfigFile) (c : PeekabooRulesetConfiguration)
      (r : String) (items : List (String × String)) (key : String),
      (cfg.map Prod.fst).Nodup →
      PeekabooRulesetConfiguration.init path (ReadResult.parsed cfg) = Except.ok c →
      alookup cfg r = some items →
      hasDotted items key = true →
      hasPlain items key = false →
      ∃ l, alookup (PeekabooRulesetConfiguration.rule_config c r) key =
        some (RVal.list l) := by
  intro path cfg c r items key hnd hinit hfind hdt hpl
  obtain ⟨m, hps, hc⟩ := rulesetInit_parsed_ok path cfg c hinit
  obtain ⟨rm, hpi, hmr⟩ := procSections_ok_section cfg [] m r items hnd hps hfind rfl
  subst hc
  have hrc : PeekabooRulesetConfiguration.rule_config ⟨path, m⟩ r = rm := by
    unfold PeekabooRulesetConfiguration.rule_config
    simp [hmr]
  rw [hrc]
  exact procItems_dotted_only_list items [] rm key hpi hpl (Or.inr ⟨rfl, hdt⟩)

theorem ruleset_dotted_only_key_is_list_witness :
    ∃ l, alookup (PeekabooRulesetConfiguration.rule_config
      ⟨"rs.conf", [("r1", [("foo", RVal.list ["a", "b"])])]⟩ "r1") "foo" =
      some (RVal.list l) :=
  ruleset_dotted_only_key_is_list "rs.conf" [("r1", [("foo.0", "a"), ("foo.1", "b")])]
    ⟨"rs.conf", [("r1", [("foo", RVal.list ["a", "b"])])]⟩ "r1"
    [("foo.0", "a"), ("foo.1", "b")] "foo" (by decide) rfl rfl rfl rfl

/-- C10: when a rule's `enabled` option appears only in dotted-suffix form
in its section (in a parsed file with unique section names), the stored
value is a list, and `rule_enabled` is `true` for that rule, because a list
is never equal to the scalar string `no`. -/
theorem dotted_enabled_never_disables :
    ∀ (path : String) (cfg : ConfigFile) (c : PeekabooRulesetConfiguration)
      (r : String) (items : List (String × String)),
      (cfg.map Prod.fst).Nodup →
      PeekabooRulesetConfiguration.init path (ReadResult.parsed cfg) = Except.ok c →
      alookup cfg r = some items →
      hasDotted items "enabled" = true →
      hasPlain items "enabled" = false →
      (∃ l, alookup (PeekabooRulesetConfiguration.rule_config c r) "enabled" =
        some (RVal.list l)) ∧
      PeekabooRulesetConfiguration.rule_enabled c r = true := by
  intro path cfg c r items hnd hinit hfind hdt hpl
  obtain ⟨m, hps, hc⟩ := rulesetInit_parsed_ok path cfg c hinit
  obtain ⟨rm, hpi, hmr⟩ := procSections_ok_section cfg [] m r items hnd hps hfind rfl
  subst hc
  have hrc : PeekabooRulesetConfiguration.rule_config ⟨path, m⟩ r = rm := by
    unfold PeekabooRulesetConfiguration.rule_config
    simp [hmr]
  obtain ⟨l, hl⟩ :=
    procItems_dotted_only_list items [] rm "enabled" hpi hpl (Or.inr ⟨rfl, hdt⟩)
  constructor
  · exact ⟨l, by rw [hrc]; exact hl⟩
  · unfold PeekabooRulesetConfiguration.rule_enabled
    rw [hrc, hl]
    rfl

theorem dotted_enabled_never_disables_witness :
    (∃ l, alookup (PeekabooRulesetConfiguration.rule_config
      ⟨"rules.conf", [("r2", [("enabled", RVal.list ["no"])])]⟩ "r2") "enabled" =
      some (RVal.list l)) ∧
    PeekabooRulesetConfiguration.rule_enabled
      ⟨"rules.conf", [("r2", [("enabled", RVal.list ["no"])])]⟩ "r2" = true :=
  dotted_enabled_never_disables "rules.conf" [("r2", [("enabled.0", "no")])]
    ⟨"rules.conf", [("r2", [("enabled", RVal.list ["no"])])]⟩ "r2"
    [("enabled.0", "no")] (by decide) rfl rfl rfl rfl
